import Mathlib

/-!
Verification of the ContentCraft Pro project/section/revision data model and
its generation-and-refinement lifecycle.

The client components (App.js router and axios interceptor, ProjectEditor
handlers, CreateProject form handler) are embedded directly from the React
source.  The backend handlers (FastAPI `server.py`) are not part of the
checked-in sources here, so the Generation Orchestrator and the
Feedback/Comment store are modelled from the specification text; those
definitions carry a doc comment starting with `Modelled from the spec:`.

Machine-level details that the claims do not touch (HTTP transport, JSX
rendering, timers) are abstracted: an external call is a function parameter,
a network response is a value of an outcome type, and the number of POST
requests an invocation issues is returned explicitly.
-/

namespace CCraft

/-- A Section of a Project: a titled content unit.  `content` is `none`
exactly until first generation completes (data model, section 3 of the
specification; the list position is the zero-based dense order index). -/
structure DocSection where
  id : Nat
  title : String
  content : Option String
deriving Repr, DecidableEq

/-- A Revision ledger entry: one refinement instruction and the content it
produced.  Revision lists are kept in display order, most recent first. -/
structure Revision where
  prompt : String
  response : String
deriving Repr, DecidableEq

/-- The external LLM generation capability, a black box:
(topic, section title, context of prior (title, content) pairs in the same
batch) to an optional generated text; `none` is an upstream failure. -/
def LLMGen : Type := String → String → List (String × String) → Option String

/-- The external LLM refinement capability, a black box:
(current section content, instruction) to an optional refined text. -/
def LLMRefine : Type := String → String → Option String

/-- True when every section already has non-null content. -/
def allGenerated (ss : List DocSection) : Bool :=
  ss.all (fun s => s.content.isSome)

/-- The (title, content) context pairs a list of already generated sections
contributes to later generation calls of the same batch. -/
def ctxOf (ss : List DocSection) : List (String × String) :=
  ss.map (fun s => (s.title, s.content.getD ""))

/-- Modelled from the spec: the sequential generation pass of
`triggerGeneration` (the backend `server.py` is not among the checked-in
sources).  For each Section in order index order it calls the external
generation capability with the topic, the section title and the
titles/contents of the prior sections of the same batch as context, and
persists the result into that section.  A failure stops the pass: earlier
sections keep their new content, later sections are left untouched.  The
second component counts the upstream LLM calls performed. -/
def genSeq (llm : LLMGen) (topic : String) :
    List DocSection → List (String × String) → List DocSection × Nat
  | [], _ => ([], 0)
  | s :: rest, ctx =>
    match llm topic s.title ctx with
    | some c =>
      let r := genSeq llm topic rest (ctx ++ [(s.title, c)])
      ({ s with content := some c } :: r.1, r.2 + 1)
    | none => (s :: rest, 1)

/-- Result kind of `triggerGeneration`: either a fresh generation pass ran,
or every section already had content and nothing was done. -/
inductive GenResult where
  | generated (sections : List DocSection)
  | alreadyGenerated (sections : List DocSection)
deriving Repr, DecidableEq

/-- Modelled from the spec: `triggerGeneration` (backend not among the
checked-in sources).  If every Section already has non-null content it
returns an "already generated" result carrying the current Sections, as a
no-op; otherwise it runs the sequential generation pass.  Returns the
result, the stored sections after the call, and the number of upstream LLM
calls performed. -/
def triggerGeneration (llm : LLMGen) (topic : String) (ss : List DocSection) :
    GenResult × List DocSection × Nat :=
  if allGenerated ss then
    (GenResult.alreadyGenerated ss, ss, 0)
  else
    let r := genSeq llm topic ss []
    (GenResult.generated r.1, r.1, r.2)

/-- A toast notification emitted by a client handler. -/
inductive Toast where
  | info (msg : String)
  | success (msg : String)
  | error (msg : String)
deriving Repr, DecidableEq

/-- Outcome of the POST /generate-content request as the client sees it
(ProjectEditor.jsx): a 200 whose message is "Content already generated", any
other 200, a 400 whose detail contains "already generated", a network-layer
error, or any other error. -/
inductive GenOutcome where
  | okAlready (sections : Option (List DocSection))
  | okGenerated
  | errAlreadyGenerated
  | errNetwork
  | errOther
deriving Repr, DecidableEq

/-- The part of the ProjectEditor component state that `generateContent`
reads and writes: the `generating` flag and the `sections` array. -/
structure EditorGenState where
  generating : Bool
  sections : List DocSection
deriving Repr, DecidableEq

/-- The client `generateContent` handler (ProjectEditor.jsx).  `outcome` is
the response of the POST /generate-content request this invocation would
issue; `fetched` abstracts the sections that a `fetchProject` call would
load on the paths that re-fetch.  Returns the new state, the number of
POST /generate-content requests issued by this invocation, and the toasts
shown.  When the `generating` flag is already set the handler returns
immediately with an informational toast and issues no request. -/
def generateContent (st : EditorGenState) (outcome : GenOutcome)
    (fetched : List DocSection) : EditorGenState × Nat × List Toast :=
  if st.generating then
    (st, 0, [Toast.info "Generation is already in progress. Please wait..."])
  else
    let started := Toast.info "🤖 Starting content generation... This may take 30-60 seconds."
    match outcome with
    | GenOutcome.okAlready secs =>
        ({ generating := false, sections := secs.getD [] }, 1,
         [started, Toast.success "✅ Content is ready!"])
    | GenOutcome.okGenerated =>
        ({ generating := false, sections := fetched }, 1,
         [started, Toast.success "✅ Content generated successfully!"])
    | GenOutcome.errAlreadyGenerated =>
        ({ generating := false, sections := fetched }, 1,
         [started, Toast.success "✅ Content is already available!"])
    | GenOutcome.errNetwork =>
        ({ generating := false, sections := st.sections }, 1,
         [started, Toast.info "⏳ Generation is processing... Please wait, content will appear when ready."])
    | GenOutcome.errOther =>
        ({ generating := false, sections := st.sections }, 1,
         [started, Toast.error "❌ Generation failed. Please try again."])

/-- Auxiliary characterization of the sequential generation pass: there is a
count k of leading sections that receive freshly generated content, each
produced from the context of the sections generated before it in the batch;
every section from position k on is left exactly as it was, and when k is
not the whole list the upstream call at position k failed. -/
theorem genSeq_decomposition (llm : LLMGen) (topic : String)
    (ss : List DocSection) :
    ∀ ctx : List (String × String), ∃ k, k ≤ ss.length ∧
      (genSeq llm topic ss ctx).1.length = ss.length ∧
      (∀ i, k ≤ i → (genSeq llm topic ss ctx).1.get? i = ss.get? i) ∧
      (∀ i, i < k → ∃ s c, ss.get? i = some s ∧
        llm topic s.title (ctx ++ ctxOf ((genSeq llm topic ss ctx).1.take i)) = some c ∧
        (genSeq llm topic ss ctx).1.get? i = some { s with content := some c }) ∧
      (k < ss.length → ∃ s, ss.get? k = some s ∧
        llm topic s.title (ctx ++ ctxOf ((genSeq llm topic ss ctx).1.take k)) = none) := by
  induction ss with
  | nil =>
    intro ctx
    exact ⟨0, by simp [genSeq]⟩
  | cons s rest ih =>
    intro ctx
    cases hcall : llm topic s.title ctx with
    | none =>
      refine ⟨0, by simp, ?_, ?_, ?_, ?_⟩
      · simp [genSeq, hcall]
      · intro i _
        simp [genSeq, hcall]
      · intro i hi
        exact absurd hi (Nat.not_lt_zero i)
      · intro _
        exact ⟨s, by simp [genSeq, hcall], by simp [genSeq, hcall, ctxOf]⟩
    | some c =>
      obtain ⟨k, hk, hlen, hsame, hgen, hfail⟩ := ih (ctx ++ [(s.title, c)])
      have hres : (genSeq llm topic (s :: rest) ctx).1 =
          { s with content := some c } ::
            (genSeq llm topic rest (ctx ++ [(s.title, c)])).1 := by
        simp [genSeq, hcall]
      refine ⟨k + 1, by simpa using Nat.succ_le_succ hk, ?_, ?_, ?_, ?_⟩
      · rw [hres]
        simp [hlen]
      · intro i hi
        match i, hi with
        | j + 1, hj =>
          rw [hres]
          simpa using hsame j (Nat.le_of_succ_le_succ hj)
      · intro i hi
        match i with
        | 0 =>
          refine ⟨s, c, rfl, ?_, by rw [hres]; rfl⟩
          simpa [ctxOf] using hcall
        | j + 1 =>
          obtain ⟨t, d, h1, h2, h3⟩ := hgen j (Nat.lt_of_succ_lt_succ hi)
          refine ⟨t, d, by simpa using h1, ?_, by rw [hres]; simpa using h3⟩
          rw [hres]
          simpa [ctxOf] using h2
      · intro hklt
        obtain ⟨t, h1, h2⟩ := hfail (by simpa using Nat.lt_of_succ_lt_succ hklt)
        refine ⟨t, by simpa using h1, ?_⟩
        rw [hres]
        simpa [ctxOf] using h2

/-- C1: for a Project whose sections all already have non-null content,
`triggerGeneration` is an idempotent no-op: it returns the
"already generated" result carrying the current Sections, the stored
sections are identical before and after the call, and zero upstream LLM
calls are performed; the client, on receiving that result, stores the
returned sections and issues no further generation request. -/
theorem c1_already_generated_noop (llm : LLMGen) (topic : String)
    (ss : List DocSection) (st : EditorGenState)
    (secs fetched : List DocSection)
    (hall : allGenerated ss = true) :
    triggerGeneration llm topic ss = (GenResult.alreadyGenerated ss, ss, 0) ∧
    (st.generating = false →
      generateContent st (GenOutcome.okAlready (some secs)) fetched =
        ({ generating := false, sections := secs }, 1,
         [Toast.info "🤖 Starting content generation... This may take 30-60 seconds.",
          Toast.success "✅ Content is ready!"])) := by
  constructor
  · simp [triggerGeneration, hall]
  · intro hg
    simp [generateContent, hg]

/-- Witness for C1 at a concrete single-section project whose content is
already present, and a concrete idle editor state. -/
theorem c1_already_generated_noop_witness :
    triggerGeneration (fun _ _ _ => none) "EV market"
        [⟨0, "Intro", some "text"⟩] =
      (GenResult.alreadyGenerated [⟨0, "Intro", some "text"⟩],
       [⟨0, "Intro", some "text"⟩], 0) ∧
    (EditorGenState.generating ⟨false, []⟩ = false →
      generateContent ⟨false, []⟩
          (GenOutcome.okAlready (some [⟨0, "Intro", some "text"⟩])) [] =
        ({ generating := false, sections := [⟨0, "Intro", some "text"⟩] }, 1,
         [Toast.info "🤖 Starting content generation... This may take 30-60 seconds.",
          Toast.success "✅ Content is ready!"])) :=
  c1_already_generated_noop (fun _ _ _ => none) "EV market"
    [⟨0, "Intro", some "text"⟩] ⟨false, []⟩ [⟨0, "Intro", some "text"⟩] []
    (by decide)

/-- C2: generation fills the sections strictly sequentially in ascending
order-index order (the list order), passing the earlier sections of the
batch as context to each later call; when the pass fails at position k,
every section before k holds its freshly generated non-null content, every
section from k on is exactly as before (null stays null), and nothing is
rolled back.  The first conjunct ties `triggerGeneration` to the pass it
runs when not all sections are filled. -/
theorem c2_sequential_generation_partial_failure (llm : LLMGen)
    (topic : String) (ss : List DocSection) :
    (allGenerated ss = false →
      triggerGeneration llm topic ss =
        (GenResult.generated (genSeq llm topic ss []).1,
         (genSeq llm topic ss []).1, (genSeq llm topic ss []).2)) ∧
    ∃ k, k ≤ ss.length ∧
      (genSeq llm topic ss []).1.length = ss.length ∧
      (∀ i, k ≤ i → (genSeq llm topic ss []).1.get? i = ss.get? i) ∧
      (∀ i, i < k → ∃ s c, ss.get? i = some s ∧
        llm topic s.title (ctxOf ((genSeq llm topic ss []).1.take i)) = some c ∧
        (genSeq llm topic ss []).1.get? i = some { s with content := some c }) ∧
      (k < ss.length → ∃ s, ss.get? k = some s ∧
        llm topic s.title (ctxOf ((genSeq llm topic ss []).1.take k)) = none) := by
  constructor
  · intro hng
    simp [triggerGeneration, hng]
  · obtain ⟨k, h1, h2, h3, h4, h5⟩ := genSeq_decomposition llm topic ss []
    exact ⟨k, h1, h2, h3, by simpa using h4, by simpa using h5⟩

/-- A section as the ProjectEditor component holds it: the stored fields
plus the per-section data loaded alongside (revision history most recent
first, persisted comment texts, feedback flags). -/
structure ClientSection where
  id : Nat
  title : String
  content : Option String
  revisionHistory : List Revision
  persistedComments : List String
  liked : Bool
  disliked : Bool
deriving Repr, DecidableEq

/-- The client `handleRefine` handler (ProjectEditor.jsx).  `prompts` is the
`refinePrompt` map, returning the empty string for an unset entry (the
falsy-guard of the source); `apiResult` is the `content` of the
POST /refine-content response, `none` when the request fails.  Returns the
new sections array, the new `refinePrompt` map, and the number of
POST /refine-content requests issued.  On success the matching section gets
the new content and a new revision at the head of its history and the
prompt is cleared; on failure nothing but the toast changes. -/
def handleRefine (secs : List ClientSection) (prompts : Nat → String)
    (sectionId : Nat) (apiResult : Option String) :
    List ClientSection × (Nat → String) × Nat :=
  if prompts sectionId = "" then (secs, prompts, 0)
  else
    match apiResult with
    | some c =>
      (secs.map (fun s =>
        if s.id = sectionId then
          { s with content := some c,
                   revisionHistory :=
                     { prompt := prompts sectionId, response := c } ::
                       s.revisionHistory }
        else s),
       fun j => if j = sectionId then "" else prompts j, 1)
    | none => (secs, prompts, 1)

/-- Server-side state of one Section as refinement touches it: the current
content and the Revision ledger, most recent first. -/
structure SectionState where
  content : Option String
  revisions : List Revision
deriving Repr, DecidableEq

/-- Modelled from the spec: `refineSection` (backend not among the
checked-in sources).  Requires a non-empty instruction, calls the external
refinement capability with the current content and the instruction, then
replaces the content with the response and puts a
Revision(prompt=instruction, response=new content) at the head of the
ledger.  On upstream failure the stored state is returned unchanged with an
error; no partial Revision is written.  The first component is the stored
section state after the call. -/
def refineSection (refine : LLMRefine) (instr : String) (s : SectionState) :
    SectionState × Except String String :=
  if instr = "" then (s, Except.error "instruction must not be empty")
  else
    match refine (s.content.getD "") instr with
    | some c =>
      ({ content := some c,
         revisions := { prompt := instr, response := c } :: s.revisions },
       Except.ok c)
    | none => (s, Except.error "refinement failed")

/-- C3: when the upstream refinement call fails, the stored section state
is exactly as before (content and Revision ledger untouched, no partial
Revision), and the client `handleRefine`, on a failed request, leaves the
sections array (content and revision history included) and the prompt map
unchanged. -/
theorem c3_refine_failure_leaves_state_unchanged
    (refine : LLMRefine) (instr : String) (s : SectionState)
    (secs : List ClientSection) (prompts : Nat → String) (sid : Nat)
    (hfail : refine (s.content.getD "") instr = none) :
    (refineSection refine instr s).1 = s ∧
    (refineSection refine instr s).1.content = s.content ∧
    (refineSection refine instr s).1.revisions = s.revisions ∧
    (handleRefine secs prompts sid none).1 = secs ∧
    (handleRefine secs prompts sid none).2.1 = prompts := by
  have hs : (refineSection refine instr s).1 = s := by
    by_cases hi : instr = "" <;> simp [refineSection, hi, hfail]
  refine ⟨hs, by rw [hs], by rw [hs], ?_, ?_⟩ <;>
    by_cases hp : prompts sid = "" <;> simp [handleRefine, hp]

/-- Witness for C3 at a concrete always-failing refinement capability,
section state, sections array and prompt map. -/
theorem c3_refine_failure_leaves_state_unchanged_witness :
    (refineSection (fun _ _ => none) "shorten"
        { content := some "x", revisions := [] }).1 =
      { content := some "x", revisions := [] } ∧
    (refineSection (fun _ _ => none) "shorten"
        { content := some "x", revisions := [] }).1.content = some "x" ∧
    (refineSection (fun _ _ => none) "shorten"
        { content := some "x", revisions := [] }).1.revisions = [] ∧
    (handleRefine [] (fun _ => "shorten") 0 none).1 = [] ∧
    (handleRefine [] (fun _ => "shorten") 0 none).2.1 = (fun _ => "shorten") :=
  c3_refine_failure_leaves_state_unchanged (fun _ _ => none) "shorten"
    { content := some "x", revisions := [] } [] (fun _ => "shorten") 0 rfl

/-- C4: a successful refinement grows the Revision ledger monotonically by
placing exactly one new entry at the head (display order most recent
first), leaving every prior entry in place unchanged, and the new head
entry has `response` equal to the section content after the call; the
client `handleRefine` does the same to the matching section of its array
and touches no other section. -/
theorem c4_revision_append_only
    (refine : LLMRefine) (instr : String) (s : SectionState) (c : String)
    (secs : List ClientSection) (prompts : Nat → String) (sid : Nat)
    (hinstr : instr ≠ "")
    (hok : refine (s.content.getD "") instr = some c)
    (hp : prompts sid ≠ "") :
    refineSection refine instr s =
      ({ content := some c,
         revisions := { prompt := instr, response := c } :: s.revisions },
       Except.ok c) ∧
    ((refineSection refine instr s).1.revisions.head?.map Revision.response =
      (refineSection refine instr s).1.content) ∧
    (∀ i t, secs.get? i = some t →
      (handleRefine secs prompts sid (some c)).1.get? i =
        some (if t.id = sid then
          { t with content := some c,
                   revisionHistory :=
                     { prompt := prompts sid, response := c } ::
                       t.revisionHistory }
        else t)) := by
  have href : refineSection refine instr s =
      ({ content := some c,
         revisions := { prompt := instr, response := c } :: s.revisions },
       Except.ok c) := by
    simp [refineSection, hinstr, hok]
  refine ⟨href, by rw [href]; rfl, ?_⟩
  intro i t ht
  have ht2 : secs[i]? = some t := by
    simpa [← List.get?_eq_getElem?] using ht
  simp [handleRefine, hp, List.get?_eq_getElem?, List.getElem?_map, ht2]

/-- Witness for C4 at a concrete succeeding refinement capability, a
section state with one prior revision, and a one-section editor array. -/
theorem c4_revision_append_only_witness :
    refineSection (fun a b => some (a ++ b)) "add"
        { content := some "x", revisions := [{ prompt := "p0", response := "x" }] } =
      ({ content := some "xadd",
         revisions := [{ prompt := "add", response := "xadd" },
                       { prompt := "p0", response := "x" }] },
       Except.ok "xadd") ∧
    ((refineSection (fun a b => some (a ++ b)) "add"
        { content := some "x",
          revisions := [{ prompt := "p0", response := "x" }] }).1.revisions.head?.map
        Revision.response =
      (refineSection (fun a b => some (a ++ b)) "add"
        { content := some "x",
          revisions := [{ prompt := "p0", response := "x" }] }).1.content) ∧
    (∀ i t, [ClientSection.mk 0 "T" (some "x") [] [] false false].get? i = some t →
      (handleRefine [ClientSection.mk 0 "T" (some "x") [] [] false false]
          (fun _ => "add") 0 (some "xadd")).1.get? i =
        some (if t.id = 0 then
          { t with content := some "xadd",
                   revisionHistory :=
                     { prompt := "add", response := "xadd" } ::
                       t.revisionHistory }
        else t)) :=
  c4_revision_append_only (fun a b => some (a ++ b)) "add"
    { content := some "x", revisions := [{ prompt := "p0", response := "x" }] }
    "xadd" [ClientSection.mk 0 "T" (some "x") [] [] false false]
    (fun _ => "add") 0 (by decide) rfl (by decide)

/-- Sentiment of the single Feedback record of a section. -/
inductive Sentiment where
  | like
  | dislike
  | neutral
deriving Repr, DecidableEq

/-- A row of the Feedback table: at most one per section, upsert semantics. -/
structure FeedbackRow where
  sectionId : Nat
  sentiment : Sentiment
  comment : String
deriving Repr, DecidableEq

/-- A row of the Comment table: append-only, many per section. -/
structure CommentRow where
  sectionId : Nat
  text : String
deriving Repr, DecidableEq

/-- All Feedback rows stored for a given section. -/
def rowsFor (rows : List FeedbackRow) (sid : Nat) : List FeedbackRow :=
  rows.filter (fun r => r.sectionId == sid)

/-- Modelled from the spec: `submitFeedback` (backend not among the
checked-in sources) upserts the single Feedback row of the section:
when a row for the section exists its sentiment and comment are
overwritten in place, otherwise one new row is inserted; it never appends
a second row for the same section. -/
def submitFeedback (rows : List FeedbackRow) (sid : Nat) (sent : Sentiment)
    (comment : String) : List FeedbackRow :=
  if rows.any (fun r => r.sectionId == sid) then
    rows.map (fun r =>
      if r.sectionId == sid then
        { r with sentiment := sent, comment := comment }
      else r)
  else
    rows ++ [{ sectionId := sid, sentiment := sent, comment := comment }]

/-- Overwriting the rows of one section keeps the other rows and turns each
matching row into the new sentiment/comment row. -/
theorem rowsFor_map_upsert (sid : Nat) (sent : Sentiment) (comment : String)
    (rows : List FeedbackRow) :
    rowsFor (rows.map (fun r =>
        if r.sectionId == sid then
          { r with sentiment := sent, comment := comment }
        else r)) sid =
      (rowsFor rows sid).map (fun _ =>
        { sectionId := sid, sentiment := sent, comment := comment }) := by
  induction rows with
  | nil => rfl
  | cons r l ih =>
    simp only [rowsFor] at ih
    by_cases hr : (r.sectionId == sid) = true
    · have hEq : r.sectionId = sid := by simpa using hr
      have hfr : (if (r.sectionId == sid) = true then
          ({ r with sentiment := sent, comment := comment } : FeedbackRow)
        else r) = { sectionId := sid, sentiment := sent, comment := comment } := by
        rw [if_pos hr]
        simp [hEq]
      simp only [rowsFor, List.map_cons, List.filter_cons, hfr]
      have hnew : ((sid == sid) = true) := by simp
      rw [if_pos hnew, if_pos hr, List.map_cons, ih]
    · have hfr : (if (r.sectionId == sid) = true then
          ({ r with sentiment := sent, comment := comment } : FeedbackRow)
        else r) = r := if_neg hr
      simp only [rowsFor, List.map_cons, List.filter_cons, hfr]
      rw [if_neg (by simpa using hr), if_neg (by simpa using hr), ih]

/-- An upsert leaves exactly the one new row stored for the section, given
that the store held at most one row for it (the table invariant). -/
theorem submitFeedback_rowsFor (rows : List FeedbackRow) (sid : Nat)
    (sent : Sentiment) (comment : String)
    (hwf : (rowsFor rows sid).length ≤ 1) :
    rowsFor (submitFeedback rows sid sent comment) sid =
      [{ sectionId := sid, sentiment := sent, comment := comment }] := by
  by_cases hany : rows.any (fun r => r.sectionId == sid) = true
  · have hne : rowsFor rows sid ≠ [] := by
      obtain ⟨r, hr, hp2⟩ := List.any_eq_true.mp hany
      intro hnil
      have hmem : r ∈ rowsFor rows sid := List.mem_filter.mpr ⟨hr, hp2⟩
      rw [hnil] at hmem
      cases hmem
    match hlist : rowsFor rows sid with
    | [] => exact absurd hlist hne
    | [r0] =>
      have h1 := rowsFor_map_upsert sid sent comment rows
      rw [hlist] at h1
      simpa [submitFeedback, hany] using h1
    | r0 :: r1 :: t =>
      rw [hlist] at hwf
      simp at hwf
  · have hfil : rowsFor rows sid = [] := by
      have hall := List.any_eq_false.mp (Bool.eq_false_iff.mpr hany)
      exact List.filter_eq_nil_iff.mpr hall
    simp [submitFeedback, hany, rowsFor, List.filter_append] at hfil ⊢
    exact hfil

/-- C5: submitting feedback twice for the same section leaves exactly one
Feedback row for it, holding the sentiment and comment of the second call:
`submitFeedback(S, like, "")` then `submitFeedback(S, dislike, "good")`
ends with the single row (S, dislike, "good"); re-submission overwrites, it
never appends a second row.  The hypothesis is the table invariant that the
store held at most one row for the section to begin with. -/
theorem c5_feedback_upsert (rows : List FeedbackRow) (sid : Nat)
    (hwf : (rowsFor rows sid).length ≤ 1) :
    rowsFor (submitFeedback (submitFeedback rows sid Sentiment.like "")
        sid Sentiment.dislike "good") sid =
      [{ sectionId := sid, sentiment := Sentiment.dislike, comment := "good" }] := by
  have h1 := submitFeedback_rowsFor rows sid Sentiment.like "" hwf
  have h2 : (rowsFor (submitFeedback rows sid Sentiment.like "") sid).length ≤ 1 := by
    rw [h1]
    simp
  exact submitFeedback_rowsFor _ sid Sentiment.dislike "good" h2

/-- Witness for C5 at a store that starts with a row for another section
and none for section 0. -/
theorem c5_feedback_upsert_witness :
    rowsFor (submitFeedback (submitFeedback
        [{ sectionId := 7, sentiment := Sentiment.like, comment := "old" }]
        0 Sentiment.like "") 0 Sentiment.dislike "good") 0 =
      [{ sectionId := 0, sentiment := Sentiment.dislike, comment := "good" }] :=
  c5_feedback_upsert
    [{ sectionId := 7, sentiment := Sentiment.like, comment := "old" }] 0
    (by decide)

/-- The two persisted per-section stores that feedback and comments live
in: the Feedback table (one row per section) and the Comment table
(append-only). -/
structure Store where
  feedbacks : List FeedbackRow
  comments : List CommentRow
deriving Repr, DecidableEq

/-- Modelled from the spec: `submitFeedback` acts only on the Feedback
table of the store; the Comment table is a distinct persisted store. -/
def submitFeedbackStore (st : Store) (sid : Nat) (sent : Sentiment)
    (comment : String) : Store :=
  { st with feedbacks := submitFeedback st.feedbacks sid sent comment }

/-- Modelled from the spec: `addComment` rejects empty or whitespace-only
text and otherwise appends one new Comment row; it never overwrites prior
comments and does not touch the Feedback table. -/
def addComment (st : Store) (sid : Nat) (text : String) :
    Except String Store :=
  if text.trim = "" then Except.error "comment must not be empty"
  else
    Except.ok
      { st with comments := st.comments ++ [{ sectionId := sid, text := text }] }

/-- The guard of the client `handleComment` handler (ProjectEditor.jsx): it
trims the comment input of the section and issues no request when the
trimmed text is empty; otherwise the trimmed text is what it submits. -/
def handleComment (commentsInput : Nat → String) (sid : Nat) :
    Option String :=
  let c := (commentsInput sid).trim
  if c = "" then none else some c

/-- C6: feedback and comments are independent stores.  Submitting feedback
leaves the Comment table exactly as it was; adding a non-blank comment
appends one new Comment row after all prior ones and leaves the Feedback
table exactly as it was; a blank comment is rejected, and the client
comment handler issues no request for whitespace-only input. -/
theorem c6_feedback_and_comments_independent
    (st : Store) (sid : Nat) (sent : Sentiment) (c text : String)
    (commentsInput : Nat → String) :
    (submitFeedbackStore st sid sent c).comments = st.comments ∧
    (text.trim ≠ "" →
      addComment st sid text =
        Except.ok { st with
          comments := st.comments ++ [{ sectionId := sid, text := text }] }) ∧
    (text.trim = "" →
      addComment st sid text = Except.error "comment must not be empty") ∧
    ((commentsInput sid).trim = "" → handleComment commentsInput sid = none) := by
  refine ⟨rfl, ?_, ?_, ?_⟩
  · intro h
    simp [addComment, h]
  · intro h
    simp [addComment, h]
  · intro h
    simp [handleComment, h]

/-- The credential state the App component manages (App.js): the token and
user entries of sessionStorage, the in-memory React token and user state,
and the axios Authorization default header. -/
structure AuthState where
  sessionToken : Option String
  sessionUser : Option String
  token : Option String
  user : Option String
  axiosAuthHeader : Option String
deriving Repr, DecidableEq

/-- The global axios response interceptor (App.js): on an error response
whose status is 401 it removes the token and user entries from
sessionStorage, sets the in-memory token and user to null, and deletes the
axios Authorization default header; every other error leaves the state
untouched (the error is re-rejected to the caller either way).  `status`
is optional because a network error carries no response. -/
def onResponseError (status : Option Nat) (st : AuthState) : AuthState :=
  if status = some 401 then
    { sessionToken := none, sessionUser := none, token := none,
      user := none, axiosAuthHeader := none }
  else st

/-- JavaScript truthiness of the token value the router branches on: null
and the empty string are falsy. -/
def tokenTruthy : Option String → Bool
  | none => false
  | some t => !(t == "")

/-- The route paths the App router declares (App.js). -/
inductive RoutePath where
  | root
  | auth
  | dashboard
  | create
  | projectEditor
deriving Repr, DecidableEq

/-- What a route renders: one of the four screens, or a redirect. -/
inductive Rendered where
  | authScreen
  | dashboardScreen
  | createScreen
  | editorScreen
  | redirectToAuth
  | redirectToDashboard
deriving Repr, DecidableEq

/-- The App router (App.js): the root path redirects by token presence,
/auth renders the auth screen only without a token, and the three
protected paths render their screen only with a token, otherwise they
redirect to /auth. -/
def renderRoute (p : RoutePath) (token : Option String) : Rendered :=
  match p with
  | RoutePath.root =>
      if tokenTruthy token then Rendered.redirectToDashboard
      else Rendered.redirectToAuth
  | RoutePath.auth =>
      if !(tokenTruthy token) then Rendered.authScreen
      else Rendered.redirectToDashboard
  | RoutePath.dashboard =>
      if tokenTruthy token then Rendered.dashboardScreen
      else Rendered.redirectToAuth
  | RoutePath.create =>
      if tokenTruthy token then Rendered.createScreen
      else Rendered.redirectToAuth
  | RoutePath.projectEditor =>
      if tokenTruthy token then Rendered.editorScreen
      else Rendered.redirectToAuth

/-- True for the protected screens of the router. -/
def isProtectedScreen : Rendered → Bool
  | Rendered.dashboardScreen => true
  | Rendered.createScreen => true
  | Rendered.editorScreen => true
  | _ => false

/-- C7: a 401 response makes the client drop its stored credentials: the
token and user sessionStorage entries are removed, the in-memory token and
user become null, and the axios Authorization default header is deleted;
with the token gone, every protected route redirects to the auth screen. -/
theorem c7_unauthorized_drops_credentials (st : AuthState) :
    onResponseError (some 401) st =
      { sessionToken := none, sessionUser := none, token := none,
        user := none, axiosAuthHeader := none } ∧
    renderRoute RoutePath.dashboard (onResponseError (some 401) st).token =
      Rendered.redirectToAuth ∧
    renderRoute RoutePath.create (onResponseError (some 401) st).token =
      Rendered.redirectToAuth ∧
    renderRoute RoutePath.projectEditor (onResponseError (some 401) st).token =
      Rendered.redirectToAuth := by
  refine ⟨rfl, ?_, ?_, ?_⟩ <;> rfl

/-- C10: route protection invariant of the client router.  A protected
screen is rendered only when a (truthy) token is present; the auth screen
is rendered only when no token is present; without a token each protected
path redirects to /auth, and with a token /auth redirects to /dashboard. -/
theorem c10_route_protection (p : RoutePath) (tok : Option String) :
    (isProtectedScreen (renderRoute p tok) = true → tokenTruthy tok = true) ∧
    (renderRoute p tok = Rendered.authScreen → tokenTruthy tok = false) ∧
    (tokenTruthy tok = false →
      renderRoute RoutePath.dashboard tok = Rendered.redirectToAuth ∧
      renderRoute RoutePath.create tok = Rendered.redirectToAuth ∧
      renderRoute RoutePath.projectEditor tok = Rendered.redirectToAuth) ∧
    (tokenTruthy tok = true →
      renderRoute RoutePath.auth tok = Rendered.redirectToDashboard) := by
  cases p <;> cases h : tokenTruthy tok <;>
    simp [renderRoute, isProtectedScreen, h]

/-- The form state of the CreateProject component (CreateProject.jsx):
name, document type, topic, and the outline/slide title lists. -/
structure ProjectDraft where
  name : String
  type : String
  topic : String
  outline : List String
  slides : List String
deriving Repr, DecidableEq

/-- The body of the POST /projects request `handleCreate` sends; `config`
is the outline (for docx) or slides (otherwise) list after filtering. -/
structure CreateRequest where
  name : String
  type : String
  topic : String
  config : List String
deriving Repr, DecidableEq

/-- The items list the draft edits: the outline for a Word document, the
slide titles otherwise (CreateProject.jsx). -/
def draftItems (pd : ProjectDraft) : List String :=
  if pd.type == "docx" then pd.outline else pd.slides

/-- The client `handleCreate` handler (CreateProject.jsx): it requires a
non-empty name and topic (JavaScript falsy check on the strings), filters
the items down to those whose trim is non-empty, requires at least one to
remain, and sends the request whose config is exactly the surviving items
in their original order.  `none` means no POST /projects request is
issued. -/
def handleCreate (pd : ProjectDraft) : Option CreateRequest :=
  if pd.name == "" || pd.topic == "" then none
  else
    let validItems := (draftItems pd).filter (fun item => !(item.trim == ""))
    if validItems.isEmpty then none
    else
      some { name := pd.name, type := pd.type, topic := pd.topic,
             config := validItems }

/-- C8: project creation is guarded by validation.  `handleCreate` sends a
request exactly when the name and topic are non-empty and at least one
outline/slide title is non-whitespace, and the config it sends is exactly
the non-whitespace titles in their original order. -/
theorem c8_create_project_validation (pd : ProjectDraft) :
    ((handleCreate pd).isSome = true ↔
      (pd.name ≠ "" ∧ pd.topic ≠ "" ∧ ∃ it ∈ draftItems pd, it.trim ≠ "")) ∧
    (∀ req, handleCreate pd = some req →
      req.name = pd.name ∧ req.type = pd.type ∧ req.topic = pd.topic ∧
      req.config = (draftItems pd).filter (fun item => !(item.trim == ""))) := by
  constructor
  · by_cases h1 : pd.name = ""
    · simp [handleCreate, h1]
    · by_cases h2 : pd.topic = ""
      · simp [handleCreate, h1, h2]
      · by_cases h3 :
          (draftItems pd).filter (fun item => !(item.trim == "")) = []
        · simp only [handleCreate, List.isEmpty_iff, h3]
          simp [h1, h2]
          intro it hmem
          have := List.filter_eq_nil_iff.mp h3 it hmem
          simpa using this
        · simp only [handleCreate, List.isEmpty_iff]
          simp [h1, h2, h3]
          obtain ⟨y, hy⟩ := List.exists_mem_of_ne_nil _ h3
          have hmem := List.mem_filter.mp hy
          exact ⟨y, hmem.1, by simpa using hmem.2⟩
  · intro req h
    by_cases h1 : pd.name = ""
    · simp [handleCreate, h1] at h
    · by_cases h2 : pd.topic = ""
      · simp [handleCreate, h1, h2] at h
      · by_cases h3 :
          (draftItems pd).filter (fun item => !(item.trim == "")) = []
        · simp [handleCreate, List.isEmpty_iff, h1, h2, h3] at h
        · simp only [handleCreate, List.isEmpty_iff] at h
          simp [h1, h2, h3] at h
          subst h
          exact ⟨rfl, rfl, rfl, rfl⟩

/-- C9: the client keeps at most one generation request in flight.  While
the generating flag is set, an invocation of `generateContent` returns
immediately with the state unchanged, zero POST /generate-content requests
and only the informational toast; starting from an idle state, every
completion path (success, already-generated, or error) issues exactly the
one request and resets the flag to false. -/
theorem c9_single_generation_in_flight (st : EditorGenState)
    (o : GenOutcome) (fetched : List DocSection) :
    (st.generating = true →
      generateContent st o fetched =
        (st, 0, [Toast.info "Generation is already in progress. Please wait..."])) ∧
    (st.generating = false →
      (generateContent st o fetched).1.generating = false ∧
      (generateContent st o fetched).2.1 = 1) := by
  cases hg : st.generating
  · refine ⟨by simp [hg], ?_⟩
    intro _
    cases o <;> simp [generateContent, hg]
  · refine ⟨?_, by simp [hg]⟩
    intro _
    simp [generateContent, hg]

end CCraft
